import Mathlib

/-!
Verification of `bonobo/execution/strategies/executor.py`.

The file shallow-embeds the execution strategy layer: the `execute`
orchestration of `ExecutorStrategy`, the starter / node-runner closures
built by `get_starter`, and the three concrete strategies
(`ThreadPoolExecutorStrategy`, `AsyncThreadPoolExecutorStrategy`,
`ProcessPoolExecutorStrategy`).

External collaborators (the graph execution context, the node objects, the
concurrent-futures executor backend) are consumed through narrow interfaces;
they are modelled as behaviour oracles (`ContextBeh`, `Node`, `ExecutorBeh`)
so that every theorem quantifies over all of their possible behaviours.
The actions the strategy layer performs on them are recorded in an
event trace (`Event`), in program order of the coordinating thread.
-/

namespace Bonobo

/-- Python exception values, split by class: `exception` stands for any
`Exception`-derived error (the class caught by the `except Exception`
blocks in the source), while `keyboardInterrupt` and `systemExit` stand
for the `BaseException` subclasses that `except Exception` does not catch.
`except KeyboardInterrupt` catches exactly `keyboardInterrupt`. -/
inductive Exc where
  | exception : String → Exc
  | keyboardInterrupt : Exc
  | systemExit : Exc
deriving DecidableEq, Repr

/-- Whether a raised value is an instance of Python's `Exception` class,
i.e. whether an `except Exception` clause catches it. -/
def Exc.isException : Exc → Bool
  | .exception _ => true
  | .keyboardInterrupt => false
  | .systemExit => false

/-- `caughtAll o` holds when `o` is no error, or an error that
`except Exception` catches. -/
def caughtAll : Option Exc → Bool
  | none => true
  | some e => e.isException

/-- Observable actions of the strategy layer, in program order of the
thread performing them.  `offered id` records the execution context
invoking the starter callback on node `id`; `scopeAcquired`/`loopStarted`/
`scopeReleased` are the actions of one node runner (`with node: node.loop()`);
`acquireBackend w` records `create_executor` entering its scope with
`max_workers = w`; `releaseBackend` the scope exit (shutdown/join). -/
inductive Event where
  | contextWrite : Event
  | acquireBackend : Option Nat → Event
  | offered : Nat → Event
  | logCritical : String → Event
  | logWarning : String → Event
  | tick : Event
  | kill : Event
  | stop : Event
  | releaseBackend : Event
  | scopeAcquired : Nat → Event
  | loopStarted : Nat → Event
  | scopeReleased : Nat → Event
deriving DecidableEq, Repr

/-- A unit of work submitted to the pooled executor backend:
either the `_runner` closure of node `id`, or (for the event-loop-bridged
strategy) the thread-backed starter applied to node `id`, scheduled on the
pool by `loop.run_in_executor`. -/
inductive PoolTask where
  | runnerOf : Nat → PoolTask
  | starterOf : Nat → PoolTask
deriving DecidableEq, Repr

/-- One graph node, seen through the boundary the runner uses: the outcome
of its context-manager enter (`none` = success), of its blocking `loop()`,
and of its context-manager exit.  `some e` means that step raises `e`. -/
structure Node where
  enterResult : Option Exc
  loopResult : Option Exc
  exitResult : Option Exc

/-- The graph: the strategy layer only iterates its nodes and reads its
length (`len(graph)`); node `id` is the position in this list. -/
structure Graph where
  nodes : List Node

/-- Behaviour oracle for the `concurrent.futures` executor backend:
`submitResult k` is the outcome of the `k`-th `submit` call on the pool
(`none` = accepted, `some e` = `submit` raises `e`). -/
structure ExecutorBeh where
  submitResult : Nat → Option Exc

/-- Outcome of a submission bookkeeping step: the pool's submitted tasks,
the shared `futures` list, the trace of the step, and the exception it
raises, if any. -/
structure StartOut where
  subs : List PoolTask
  futures : List Nat
  trace : List Event
  err : Option Exc
deriving Repr

/-- Outcome of the tick loop. -/
structure LoopOut where
  trace : List Event
  err : Option Exc
deriving Repr

/-- Outcome of one `execute` call: its trace, and either `.ok ()` (a
context object is returned to the caller) or `.error e` (the exception `e`
propagates out of `execute`). -/
structure RunOut where
  trace : List Event
  result : Except Exc Unit
deriving Repr

/-- Outcome of running one node runner on a pool worker: its trace and the
exception propagating out of the unit of work, if any. -/
structure RunnerOut where
  trace : List Event
  err : Option Exc
deriving Repr

/-- `executor.submit(task)`: queries the backend oracle at the current
submission index; on success the task is appended to the pool's task list
and the handle (a future) is returned, on failure `submit` raises. -/
def submitTask (ex : ExecutorBeh) (subs : List PoolTask) (t : PoolTask) :
    List PoolTask × Except Exc Nat :=
  match ex.submitResult subs.length with
  | some e => (subs, .error e)
  | none => (subs ++ [t], .ok subs.length)

/-- Log message of the runner's `except Exception` block. -/
def runnerCriticalMsg : String := "Critical error in threadpool node starter."

/-- Log message of the starter's `except Exception` block. -/
def submitCriticalMsg : String := "futures.append"

/-- Log message of `execute`'s `except Exception` block around `context.start`. -/
def startCriticalMsg : String := "Exception caught while starting execution context."

/-- Warning message logged on `KeyboardInterrupt` in the tick loop. -/
def kiWarning : String :=
  "KeyboardInterrupt received. Trying to terminate the nodes gracefully."

/-- The body `with node: node.loop()` of `_runner`: enter the node's scope
(an enter failure raises without acquiring it); on success run `loop()`,
then invoke the scope exit on every path; an exception raised by the exit
replaces the loop's exception (Python `with` semantics with a
non-suppressing `__exit__`). -/
def withNodeLoop (n : Node) (id : Nat) : RunnerOut :=
  match n.enterResult with
  | some e => ⟨[], some e⟩
  | none =>
      ⟨[.scopeAcquired id, .loopStarted id, .scopeReleased id],
        match n.exitResult with
        | some e2 => some e2
        | none => n.loopResult⟩

/-- The `_runner` closure from `ExecutorStrategy.get_starter`: runs
`with node: node.loop()` and catches any `Exception`, logging it as
critical; a `BaseException` that is not an `Exception` propagates. -/
def _runner (n : Node) (id : Nat) : RunnerOut :=
  let r := withNodeLoop n id
  match r.err with
  | none => r
  | some e =>
      if e.isException then ⟨r.trace ++ [.logCritical runnerCriticalMsg], none⟩
      else r

/-- One invocation, on node `id`, of the `starter` closure returned by
`ExecutorStrategy.get_starter`: submit the node's `_runner` to the backend
and append the resulting future to the shared `futures` list; an
`Exception` raised by the submission is caught and logged as critical, any
other `BaseException` propagates. -/
def ExecutorStrategy.starter_step (ex : ExecutorBeh) (subs : List PoolTask)
    (futures : List Nat) (id : Nat) : StartOut :=
  match submitTask ex subs (.runnerOf id) with
  | (subs2, .ok h) => ⟨subs2, futures ++ [h], [], none⟩
  | (_, .error e) =>
      if e.isException then ⟨subs, futures, [.logCritical submitCriticalMsg], none⟩
      else ⟨subs, futures, [], some e⟩

/-- Modelled from the spec: `GraphExecutionContext.start` (in
`bonobo.execution.contexts.graph`, outside the provided sources) invokes
the starter callback once per node, in order; `runStarters` is that
iteration over a list of node ids.  A starter invocation that raises
aborts the iteration and the exception propagates out of `start`. -/
def runStarters (ex : ExecutorBeh) :
    List Nat → List PoolTask → List Nat → StartOut
  | [], subs, futures => ⟨subs, futures, [], none⟩
  | id :: rest, subs, futures =>
      let s := ExecutorStrategy.starter_step ex subs futures id
      match s.err with
      | none =>
          let r := runStarters ex rest s.subs s.futures
          ⟨r.subs, r.futures, (.offered id :: s.trace) ++ r.trace, r.err⟩
      | some e => ⟨s.subs, s.futures, .offered id :: s.trace, some e⟩

/-- Modelled from the spec: behaviour oracle for the graph execution
context (an external collaborator consumed through
`write`/`start`/`tick`/`alive`/`stop`/`kill`).  `buildResult` is the
outcome of `create_graph_execution_context`; `startFailure = some (k, e)`
means `start` raises `e` of its own after having offered the first `k`
nodes to the starter (the spec allows `start` itself to raise);
`tickResult i` is the outcome of the `i`-th `tick()`; `alive` is true for
the first `aliveTicks` polls of the tick loop. -/
structure ContextBeh where
  buildResult : Option Exc
  startFailure : Option (Nat × Exc)
  tickResult : Nat → Option Exc
  aliveTicks : Nat

/-- Whether the context's own start failure, if any, is one that
`except Exception` catches. -/
def startCaught (cb : ContextBeh) : Bool :=
  match cb.startFailure with
  | none => true
  | some (_, e) => e.isException

/-- Modelled from the spec: a `start` that is abandoned by its own failure
`e` — unless a starter invocation already raised, whose exception wins. -/
def abandonAfter (s : StartOut) (e : Exc) : StartOut :=
  match s.err with
  | some _ => s
  | none => ⟨s.subs, s.futures, s.trace, some e⟩

/-- Modelled from the spec: `context.start(starter)` for a graph of `n`
nodes — offer the nodes to the starter in order; if the context's own
start failure is due after `k` offers, offer only `min k n` nodes and then
raise. -/
def contextStart (cb : ContextBeh) (ex : ExecutorBeh) (n : Nat) : StartOut :=
  match cb.startFailure with
  | none => runStarters ex (List.range n) [] []
  | some (k, e) => abandonAfter (runStarters ex (List.range (min k n)) [] []) e

/-- The `while context.alive: try: context.tick() except KeyboardInterrupt`
loop of `execute`.  The first argument counts the remaining polls at which
`alive` is still true, the second is the index of the next tick.  A
`KeyboardInterrupt` raised by `tick()` logs a warning, calls `kill()` and
breaks; any other exception raised by `tick()` propagates. -/
def tickLoop (cb : ContextBeh) : Nat → Nat → LoopOut
  | 0, _ => ⟨[], none⟩
  | fuel + 1, i =>
      match cb.tickResult i with
      | none =>
          let r := tickLoop cb fuel (i + 1)
          ⟨.tick :: r.trace, r.err⟩
      | some .keyboardInterrupt => ⟨[.tick, .logWarning kiWarning, .kill], none⟩
      | some e => ⟨[.tick], some e⟩

/-- The tail of `execute` once the start phase has been dealt with: run
the tick loop, then `context.stop()`, then leave the backend's scope
(`releaseBackend`).  If the tick loop propagates an exception, `stop()` is
skipped but the scope exit still releases the backend. -/
def afterStartPhase (cb : ContextBeh) (pre body : List Event) : RunOut :=
  let l := tickLoop cb cb.aliveTicks 0
  match l.err with
  | none => ⟨pre ++ body ++ l.trace ++ [.stop, .releaseBackend], .ok ()⟩
  | some e => ⟨pre ++ body ++ l.trace ++ [.releaseBackend], .error e⟩

/-- `ExecutorStrategy.execute(graph)`, parameterised by the strategy's
`create_executor` sizing (`ce`): build the context (a build failure
propagates — the construction is outside the `try` block), `write` the
BEGIN/END sentinels, enter the executor's scope, call `context.start`
with the starter (only an `Exception` raised there is caught and logged
as critical; the run then continues degraded), run the tick loop, call
`stop()`, and release the backend.  On success the context is returned. -/
def executeWith (ce : Graph → Option Nat) (cb : ContextBeh) (ex : ExecutorBeh)
    (g : Graph) : RunOut :=
  match cb.buildResult with
  | some e => ⟨[], .error e⟩
  | none =>
      let pre : List Event := [.contextWrite, .acquireBackend (ce g)]
      let s := contextStart cb ex g.nodes.length
      match s.err with
      | none => afterStartPhase cb pre s.trace
      | some e =>
          if e.isException then
            afterStartPhase cb pre (s.trace ++ [.logCritical startCriticalMsg])
          else ⟨pre ++ s.trace ++ [.releaseBackend], .error e⟩

/-- `ExecutorStrategy.create_executor`: the base class builds
`self.executor_factory()` with no worker bound. -/
def ExecutorStrategy.create_executor (_ : Graph) : Option Nat := none

/-- `ThreadPoolExecutorStrategy.create_executor(graph)`:
`ThreadPoolExecutor(max_workers=len(graph))`. -/
def ThreadPoolExecutorStrategy.create_executor (g : Graph) : Option Nat :=
  some g.nodes.length

/-- `ProcessPoolExecutorStrategy.create_executor(graph)`:
`ProcessPoolExecutor(max_workers=len(graph))`. -/
def ProcessPoolExecutorStrategy.create_executor (g : Graph) : Option Nat :=
  some g.nodes.length

/-- `AsyncThreadPoolExecutorStrategy` inherits `create_executor` from
`ThreadPoolExecutorStrategy`. -/
def AsyncThreadPoolExecutorStrategy.create_executor : Graph → Option Nat :=
  ThreadPoolExecutorStrategy.create_executor

/-- `ThreadPoolExecutorStrategy().execute(graph)`. -/
def ThreadPoolExecutorStrategy.execute (cb : ContextBeh) (ex : ExecutorBeh)
    (g : Graph) : RunOut :=
  executeWith ThreadPoolExecutorStrategy.create_executor cb ex g

/-- `ProcessPoolExecutorStrategy().execute(graph)`. -/
def ProcessPoolExecutorStrategy.execute (cb : ContextBeh) (ex : ExecutorBeh)
    (g : Graph) : RunOut :=
  executeWith ProcessPoolExecutorStrategy.create_executor cb ex g

/-- `AsyncThreadPoolExecutorStrategy.__init__(…)`: when the `ALPHA`
feature flag is unset it raises `NotImplementedError` at once, touching
no resource (the trace is empty — in particular no backend is acquired);
with the flag set, construction succeeds. -/
def AsyncThreadPoolExecutorStrategy.init (alpha : Bool) : RunOut :=
  if alpha then ⟨[], .ok ()⟩
  else
    ⟨[], .error (.exception
      "AsyncThreadPoolExecutorStrategy is experimental, you need to explicitely activate it using ALPHA=True in system env.")⟩

/-- One invocation, on node `id`, of the starter returned by
`AsyncThreadPoolExecutorStrategy.get_starter`, which is
`functools.partial` of `loop.run_in_executor` applied to the executor and
the thread-backed starter: it submits the thread-backed starter (applied
to the node) as a task on the same pool and returns the resulting
awaitable future handle; nothing is caught here, a submission failure
propagates. -/
def AsyncThreadPoolExecutorStrategy.starter_step (ex : ExecutorBeh)
    (subs : List PoolTask) (id : Nat) : List PoolTask × Except Exc Nat :=
  submitTask ex subs (.starterOf id)

/-! ### Concrete fixtures used by witnesses and counterexamples -/

/-- A node whose enter, loop and exit all succeed. -/
def nodeOK : Node := ⟨none, none, none⟩

/-- A node whose `loop()` raises an ordinary `Exception`. -/
def nodeLoopFails : Node := ⟨none, some (.exception "loopboom"), none⟩

/-- A node whose `loop()` raises `KeyboardInterrupt`. -/
def nodeLoopKI : Node := ⟨none, some .keyboardInterrupt, none⟩

/-- A one-node graph. -/
def g1 : Graph := ⟨[nodeOK]⟩

/-- A two-node graph. -/
def g2 : Graph := ⟨[nodeOK, nodeLoopFails]⟩

/-- A backend on which every submission is accepted. -/
def exOK : ExecutorBeh := ⟨fun _ => none⟩

/-- A backend whose first submission raises an ordinary `Exception` and
which accepts all later ones. -/
def exFail0 : ExecutorBeh :=
  ⟨fun i => match i with | 0 => some (.exception "poolboom") | _ + 1 => none⟩

/-- A backend whose first submission raises `KeyboardInterrupt`. -/
def exKI0 : ExecutorBeh :=
  ⟨fun i => match i with | 0 => some .keyboardInterrupt | _ + 1 => none⟩

/-- A context that builds, starts and ticks without incident, reporting
`alive` twice. -/
def cbGood : ContextBeh := ⟨none, none, fun _ => none, 2⟩

/-- A context whose construction raises. -/
def cbBuildFail : ContextBeh := ⟨some (.exception "boom"), none, fun _ => none, 2⟩

/-- A context whose `start` raises an `Exception` before offering any node. -/
def cbStartFail : ContextBeh :=
  ⟨none, some (0, .exception "startboom"), fun _ => none, 2⟩

/-- A context whose first `tick()` raises an ordinary `Exception`. -/
def cbTickFail : ContextBeh :=
  ⟨none, none, fun i => match i with | 0 => some (.exception "tickboom") | _ + 1 => none, 2⟩

/-- A context whose second `tick()` raises `KeyboardInterrupt`. -/
def cbInterrupt : ContextBeh :=
  ⟨none, none, fun i => match i with | 1 => some .keyboardInterrupt | _ => none, 5⟩

example :
    (ThreadPoolExecutorStrategy.execute cbGood exOK g1).trace
      = [.contextWrite, .acquireBackend (some 1), .offered 0, .tick, .tick,
          .stop, .releaseBackend] := by decide

example :
    (ThreadPoolExecutorStrategy.execute cbInterrupt exOK g1).trace
      = [.contextWrite, .acquireBackend (some 1), .offered 0, .tick, .tick,
          .logWarning kiWarning, .kill, .stop, .releaseBackend] := by decide

example :
    (ThreadPoolExecutorStrategy.execute cbTickFail exOK g1).trace
      = [.contextWrite, .acquireBackend (some 1), .offered 0, .tick,
          .releaseBackend] := by decide

/-! ### Helper lemmas -/

lemma starter_step_err_caught (ex : ExecutorBeh) (subs : List PoolTask)
    (futures : List Nat) (id : Nat)
    (h : caughtAll (ex.submitResult subs.length) = true) :
    (ExecutorStrategy.starter_step ex subs futures id).err = none := by
  simp only [ExecutorStrategy.starter_step, submitTask]
  cases hsr : ex.submitResult subs.length with
  | none => simp
  | some e =>
      rw [hsr] at h
      simp only [caughtAll] at h
      simp [h]

lemma starter_step_trace_shape (ex : ExecutorBeh) (subs : List PoolTask)
    (futures : List Nat) (id : Nat) :
    ∀ ev ∈ (ExecutorStrategy.starter_step ex subs futures id).trace,
      ev = Event.logCritical submitCriticalMsg := by
  simp only [ExecutorStrategy.starter_step, submitTask]
  cases ex.submitResult subs.length with
  | none => simp
  | some e => cases he : e.isException <;> simp [he]

lemma runStarters_trace_shape (ex : ExecutorBeh) :
    ∀ (ids : List Nat) (subs : List PoolTask) (futures : List Nat),
      ∀ ev ∈ (runStarters ex ids subs futures).trace,
        (∃ i, ev = Event.offered i) ∨ ev = Event.logCritical submitCriticalMsg := by
  intro ids
  induction ids with
  | nil => intro subs futures ev hev; simp [runStarters] at hev
  | cons id rest ih =>
      intro subs futures ev hev
      rw [runStarters] at hev
      cases hse : (ExecutorStrategy.starter_step ex subs futures id).err with
      | none =>
          rw [hse] at hev
          simp only [List.cons_append, List.mem_cons, List.mem_append] at hev
          rcases hev with h | h | h
          · exact Or.inl ⟨id, h⟩
          · exact Or.inr (starter_step_trace_shape ex subs futures id ev h)
          · exact ih _ _ ev h
      | some e =>
          rw [hse] at hev
          simp only [List.mem_cons] at hev
          rcases hev with h | h
          · exact Or.inl ⟨id, h⟩
          · exact Or.inr (starter_step_trace_shape ex subs futures id ev h)

lemma runStarters_err_caught (ex : ExecutorBeh)
    (hex : ∀ j, caughtAll (ex.submitResult j) = true) :
    ∀ (ids : List Nat) (subs : List PoolTask) (futures : List Nat),
      (runStarters ex ids subs futures).err = none := by
  intro ids
  induction ids with
  | nil => intro subs futures; rfl
  | cons id rest ih =>
      intro subs futures
      rw [runStarters]
      have hse := starter_step_err_caught ex subs futures id (hex subs.length)
      rw [hse]
      exact ih _ _

lemma runStarters_offered (ex : ExecutorBeh)
    (hex : ∀ j, caughtAll (ex.submitResult j) = true) :
    ∀ (ids : List Nat) (subs : List PoolTask) (futures : List Nat),
      ∀ id ∈ ids, Event.offered id ∈ (runStarters ex ids subs futures).trace := by
  intro ids
  induction ids with
  | nil => intro subs futures id hid; simp at hid
  | cons id0 rest ih =>
      intro subs futures id hid
      rw [runStarters]
      have hse := starter_step_err_caught ex subs futures id0 (hex subs.length)
      rw [hse]
      simp only [List.cons_append, List.mem_cons, List.mem_append]
      rcases List.mem_cons.mp hid with h | h
      · exact Or.inl (by rw [h])
      · exact Or.inr (Or.inr (ih _ _ id h))

lemma abandonAfter_trace (s : StartOut) (e : Exc) :
    (abandonAfter s e).trace = s.trace := by
  rw [abandonAfter]
  split <;> rfl

lemma abandonAfter_err_none (s : StartOut) (e : Exc) (h : s.err = none) :
    (abandonAfter s e).err = some e := by
  rw [abandonAfter, h]

lemma contextStart_eq_none (cb : ContextBeh) (ex : ExecutorBeh) (n : Nat)
    (hsf : cb.startFailure = none) :
    contextStart cb ex n = runStarters ex (List.range n) [] [] := by
  rw [contextStart, hsf]

lemma contextStart_eq_some (cb : ContextBeh) (ex : ExecutorBeh) (n k : Nat) (e : Exc)
    (hsf : cb.startFailure = some (k, e)) :
    contextStart cb ex n
      = abandonAfter (runStarters ex (List.range (min k n)) [] []) e := by
  rw [contextStart, hsf]

lemma contextStart_trace_shape (cb : ContextBeh) (ex : ExecutorBeh) (n : Nat) :
    ∀ ev ∈ (contextStart cb ex n).trace,
      (∃ i, ev = Event.offered i) ∨ ev = Event.logCritical submitCriticalMsg := by
  intro ev hev
  cases hsf : cb.startFailure with
  | none =>
      rw [contextStart_eq_none cb ex n hsf] at hev
      exact runStarters_trace_shape ex _ _ _ ev hev
  | some ke =>
      rw [contextStart_eq_some cb ex n ke.1 ke.2 (by rw [hsf]),
        abandonAfter_trace] at hev
      exact runStarters_trace_shape ex _ _ _ ev hev

lemma contextStart_err_caught (cb : ContextBeh) (ex : ExecutorBeh) (n : Nat)
    (hex : ∀ j, caughtAll (ex.submitResult j) = true)
    (hsc : startCaught cb = true) :
    caughtAll (contextStart cb ex n).err = true := by
  cases hsf : cb.startFailure with
  | none =>
      rw [contextStart_eq_none cb ex n hsf, runStarters_err_caught ex hex]
      rfl
  | some ke =>
      rw [contextStart_eq_some cb ex n ke.1 ke.2 (by rw [hsf]),
        abandonAfter_err_none _ _ (runStarters_err_caught ex hex _ _ _)]
      rw [startCaught, hsf] at hsc
      simpa [caughtAll] using hsc

lemma contextStart_no_failure (cb : ContextBeh) (ex : ExecutorBeh) (n : Nat)
    (hex : ∀ j, caughtAll (ex.submitResult j) = true)
    (hsf : cb.startFailure = none) :
    (contextStart cb ex n).err = none
      ∧ ∀ id, id < n → Event.offered id ∈ (contextStart cb ex n).trace := by
  rw [contextStart_eq_none cb ex n hsf]
  refine ⟨runStarters_err_caught ex hex _ _ _, ?_⟩
  intro id hid
  exact runStarters_offered ex hex _ _ _ id (List.mem_range.mpr hid)

lemma tickLoop_trace_shape (cb : ContextBeh) :
    ∀ (fuel i : Nat), ∀ ev ∈ (tickLoop cb fuel i).trace,
      ev = Event.tick ∨ ev = Event.logWarning kiWarning ∨ ev = Event.kill := by
  intro fuel
  induction fuel with
  | zero => intro i ev hev; simp [tickLoop] at hev
  | succ f ih =>
      intro i ev hev
      rw [tickLoop] at hev
      cases htr : cb.tickResult i with
      | none =>
          rw [htr] at hev
          simp only [List.mem_cons] at hev
          rcases hev with h | h
          · exact Or.inl h
          · exact ih _ ev h
      | some e =>
          cases e <;> rw [htr] at hev <;> simp at hev <;> tauto

lemma tickLoop_no_failure (cb : ContextBeh)
    (htick : ∀ j, cb.tickResult j = none) :
    ∀ (fuel i : Nat),
      tickLoop cb fuel i = ⟨List.replicate fuel Event.tick, none⟩ := by
  intro fuel
  induction fuel with
  | zero => intro i; rfl
  | succ f ih =>
      intro i
      rw [tickLoop, htick i, ih (i + 1)]
      simp [List.replicate_succ]

lemma tickLoop_interrupt (cb : ContextBeh) :
    ∀ (i fuel s : Nat), i < fuel →
      (∀ j, j < i → cb.tickResult (s + j) = none) →
      cb.tickResult (s + i) = some Exc.keyboardInterrupt →
      tickLoop cb fuel s
        = ⟨List.replicate i Event.tick
            ++ [Event.tick, Event.logWarning kiWarning, Event.kill], none⟩ := by
  intro i
  induction i with
  | zero =>
      intro fuel s hfuel _ hki
      cases fuel with
      | zero => omega
      | succ f =>
          rw [tickLoop]
          rw [Nat.add_zero] at hki
          rw [hki]
          simp
  | succ i ih =>
      intro fuel s hfuel hpre hki
      cases fuel with
      | zero => omega
      | succ f =>
          rw [tickLoop]
          have h0 : cb.tickResult s = none := by
            have := hpre 0 (Nat.succ_pos i)
            simpa using this
          rw [h0]
          have hrec : tickLoop cb f (s + 1)
              = ⟨List.replicate i Event.tick
                  ++ [Event.tick, Event.logWarning kiWarning, Event.kill], none⟩ := by
            refine ih f (s + 1) (by omega) ?_ ?_
            · intro j hj
              have := hpre (j + 1) (by omega)
              simpa [Nat.add_assoc, Nat.add_comm 1 j] using this
            · have : s + 1 + i = s + (i + 1) := by omega
              rw [this]
              exact hki
          rw [hrec]
          simp [List.replicate_succ]

lemma afterStartPhase_ok (cb : ContextBeh) (pre body : List Event)
    (hl : (tickLoop cb cb.aliveTicks 0).err = none) :
    afterStartPhase cb pre body
      = ⟨pre ++ body ++ (tickLoop cb cb.aliveTicks 0).trace
          ++ [Event.stop, Event.releaseBackend], .ok ()⟩ := by
  rw [afterStartPhase, hl]

lemma afterStartPhase_err (cb : ContextBeh) (pre body : List Event) (e : Exc)
    (hl : (tickLoop cb cb.aliveTicks 0).err = some e) :
    afterStartPhase cb pre body
      = ⟨pre ++ body ++ (tickLoop cb cb.aliveTicks 0).trace
          ++ [Event.releaseBackend], .error e⟩ := by
  rw [afterStartPhase, hl]

lemma executeWith_start_ok (ce : Graph → Option Nat) (cb : ContextBeh)
    (ex : ExecutorBeh) (g : Graph)
    (hbuild : cb.buildResult = none)
    (hserr : (contextStart cb ex g.nodes.length).err = none) :
    executeWith ce cb ex g
      = afterStartPhase cb [Event.contextWrite, Event.acquireBackend (ce g)]
          (contextStart cb ex g.nodes.length).trace := by
  rw [executeWith, hbuild]
  simp only [hserr]

lemma executeWith_start_caught (ce : Graph → Option Nat) (cb : ContextBeh)
    (ex : ExecutorBeh) (g : Graph) (e : Exc)
    (hbuild : cb.buildResult = none)
    (hserr : (contextStart cb ex g.nodes.length).err = some e)
    (he : e.isException = true) :
    executeWith ce cb ex g
      = afterStartPhase cb [Event.contextWrite, Event.acquireBackend (ce g)]
          ((contextStart cb ex g.nodes.length).trace
            ++ [Event.logCritical startCriticalMsg]) := by
  rw [executeWith, hbuild]
  simp only [hserr, he, if_true]

lemma withNodeLoop_trace_enter_ok (n : Node) (id : Nat)
    (h : n.enterResult = none) :
    (withNodeLoop n id).trace
      = [Event.scopeAcquired id, Event.loopStarted id, Event.scopeReleased id] := by
  rw [withNodeLoop, h]

lemma _runner_eq_of_ok (n : Node) (id : Nat)
    (h : (withNodeLoop n id).err = none) :
    _runner n id = withNodeLoop n id := by
  rw [_runner, h]

lemma _runner_eq_of_caught (n : Node) (id : Nat) (e : Exc)
    (h : (withNodeLoop n id).err = some e) (he : e.isException = true) :
    _runner n id
      = ⟨(withNodeLoop n id).trace ++ [Event.logCritical runnerCriticalMsg], none⟩ := by
  rw [_runner, h]
  simp only [he, if_true]

lemma _runner_eq_of_uncaught (n : Node) (id : Nat) (e : Exc)
    (h : (withNodeLoop n id).err = some e) (he : e.isException = false) :
    _runner n id = withNodeLoop n id := by
  rw [_runner, h]
  simp only [he]
  rfl

lemma executeWith_start_uncaught (ce : Graph → Option Nat) (cb : ContextBeh)
    (ex : ExecutorBeh) (g : Graph) (e : Exc)
    (hbuild : cb.buildResult = none)
    (hserr : (contextStart cb ex g.nodes.length).err = some e)
    (he : e.isException = false) :
    executeWith ce cb ex g
      = ⟨[Event.contextWrite, Event.acquireBackend (ce g)]
          ++ (contextStart cb ex g.nodes.length).trace ++ [Event.releaseBackend],
         .error e⟩ := by
  rw [executeWith, hbuild]
  simp only [hserr, he]
  rfl

lemma afterStartPhase_mem_pre (cb : ContextBeh) (pre body : List Event)
    (ev : Event) (h : ev ∈ pre) :
    ev ∈ (afterStartPhase cb pre body).trace := by
  cases hl : (tickLoop cb cb.aliveTicks 0).err with
  | none => rw [afterStartPhase_ok cb pre body hl]; simp [h]
  | some e => rw [afterStartPhase_err cb pre body e hl]; simp [h]

lemma afterStartPhase_mem_body (cb : ContextBeh) (pre body : List Event)
    (ev : Event) (h : ev ∈ body) :
    ev ∈ (afterStartPhase cb pre body).trace := by
  cases hl : (tickLoop cb cb.aliveTicks 0).err with
  | none => rw [afterStartPhase_ok cb pre body hl]; simp [h]
  | some e => rw [afterStartPhase_err cb pre body e hl]; simp [h]

lemma executeWith_acquires (ce : Graph → Option Nat) (cb : ContextBeh)
    (ex : ExecutorBeh) (g : Graph) (hbuild : cb.buildResult = none) :
    Event.acquireBackend (ce g) ∈ (executeWith ce cb ex g).trace := by
  cases hserr : (contextStart cb ex g.nodes.length).err with
  | none =>
      rw [executeWith_start_ok ce cb ex g hbuild hserr]
      exact afterStartPhase_mem_pre _ _ _ _ (by simp)
  | some e =>
      cases he : e.isException with
      | true =>
          rw [executeWith_start_caught ce cb ex g e hbuild hserr he]
          exact afterStartPhase_mem_pre _ _ _ _ (by simp)
      | false =>
          rw [executeWith_start_uncaught ce cb ex g e hbuild hserr he]
          simp

lemma executeWith_mem_start_trace (ce : Graph → Option Nat) (cb : ContextBeh)
    (ex : ExecutorBeh) (g : Graph) (ev : Event)
    (hbuild : cb.buildResult = none)
    (hev : ev ∈ (contextStart cb ex g.nodes.length).trace) :
    ev ∈ (executeWith ce cb ex g).trace := by
  cases hserr : (contextStart cb ex g.nodes.length).err with
  | none =>
      rw [executeWith_start_ok ce cb ex g hbuild hserr]
      exact afterStartPhase_mem_body _ _ _ _ hev
  | some e =>
      cases he : e.isException with
      | true =>
          rw [executeWith_start_caught ce cb ex g e hbuild hserr he]
          exact afterStartPhase_mem_body _ _ _ _ (by simp [hev])
      | false =>
          rw [executeWith_start_uncaught ce cb ex g e hbuild hserr he]
          simp [hev]

lemma body_shape_of_start (cb : ContextBeh) (ex : ExecutorBeh) (n : Nat) :
    ∀ ev ∈ (contextStart cb ex n).trace,
      (∃ j, ev = Event.offered j) ∨ ∃ m, ev = Event.logCritical m := by
  intro ev hev
  rcases contextStart_trace_shape cb ex n ev hev with h | h
  · exact Or.inl h
  · exact Or.inr ⟨_, h⟩

lemma body_shape_of_start_caught (cb : ContextBeh) (ex : ExecutorBeh) (n : Nat) :
    ∀ ev ∈ (contextStart cb ex n).trace ++ [Event.logCritical startCriticalMsg],
      (∃ j, ev = Event.offered j) ∨ ∃ m, ev = Event.logCritical m := by
  intro ev hev
  rcases List.mem_append.mp hev with h | h
  · exact body_shape_of_start cb ex n ev h
  · simp only [List.mem_singleton] at h
    exact Or.inr ⟨_, h⟩

lemma startish_excl (w : Option Nat) (body : List Event)
    (hbody : ∀ ev ∈ body,
      (∃ j, ev = Event.offered j) ∨ ∃ m, ev = Event.logCritical m) :
    Event.tick ∉ [Event.contextWrite, Event.acquireBackend w] ++ body
    ∧ Event.kill ∉ [Event.contextWrite, Event.acquireBackend w] ++ body
    ∧ Event.stop ∉ [Event.contextWrite, Event.acquireBackend w] ++ body
    ∧ Event.releaseBackend ∉ [Event.contextWrite, Event.acquireBackend w] ++ body := by
  refine ⟨?_, ?_, ?_, ?_⟩ <;> intro hm <;>
    rcases List.mem_append.mp hm with h | h <;>
    first
      | simp at h
      | rcases hbody _ h with ⟨j, hj⟩ | ⟨m, hj⟩ <;> simp at hj

lemma loopish_excl (cb : ContextBeh) (fuel i : Nat) :
    Event.stop ∉ (tickLoop cb fuel i).trace
    ∧ Event.releaseBackend ∉ (tickLoop cb fuel i).trace
    ∧ ∀ id, Event.offered id ∉ (tickLoop cb fuel i).trace := by
  refine ⟨?_, ?_, ?_⟩
  · intro hm
    rcases tickLoop_trace_shape cb fuel i _ hm with h | h | h <;> simp at h
  · intro hm
    rcases tickLoop_trace_shape cb fuel i _ hm with h | h | h <;> simp at h
  · intro id hm
    rcases tickLoop_trace_shape cb fuel i _ hm with h | h | h <;> simp at h

/-! ### Claim theorems -/

/-- C2: the unit of work produced by the starter acquires the node's
execution scope and releases it on every exit path, including when the
node's loop fails, and any exception (any `Exception`-derived error, the
class the `except Exception` block covers; `BaseException`s are the
subject of C9) raised inside the node's scope or loop is caught and logged
inside the unit of work and never propagates out of it. -/
theorem C2_scope_release_and_isolation (n : Node) (id : Nat)
    (hall : caughtAll (withNodeLoop n id).err = true) :
    (_runner n id).err = none
    ∧ (n.enterResult = none →
        Event.scopeAcquired id ∈ (_runner n id).trace
        ∧ Event.scopeReleased id ∈ (_runner n id).trace)
    ∧ (∀ e, (withNodeLoop n id).err = some e →
        Event.logCritical runnerCriticalMsg ∈ (_runner n id).trace) := by
  cases herr : (withNodeLoop n id).err with
  | none =>
      rw [_runner_eq_of_ok n id herr]
      refine ⟨herr, ?_, ?_⟩
      · intro henter
        rw [withNodeLoop_trace_enter_ok n id henter]
        simp
      · intro e he
        exact Option.noConfusion he
  | some e =>
      rw [herr] at hall
      simp only [caughtAll] at hall
      rw [_runner_eq_of_caught n id e herr hall]
      refine ⟨rfl, ?_, ?_⟩
      · intro henter
        rw [withNodeLoop_trace_enter_ok n id henter]
        simp
      · intro e2 _
        simp

/-- C2 witness: a node whose loop raises an ordinary `Exception` still has
its scope released, the error is logged, and nothing propagates. -/
theorem C2_scope_release_and_isolation_witness :
    (_runner nodeLoopFails 0).err = none
    ∧ Event.scopeReleased 0 ∈ (_runner nodeLoopFails 0).trace
    ∧ Event.logCritical runnerCriticalMsg ∈ (_runner nodeLoopFails 0).trace := by
  have h := C2_scope_release_and_isolation nodeLoopFails 0 rfl
  exact ⟨h.1, (h.2.1 rfl).2, h.2.2 (.exception "loopboom") rfl⟩

/-- C5: constructing `AsyncThreadPoolExecutorStrategy` without the ALPHA
feature flag raises the feature-not-enabled `NotImplementedError`
immediately, with an empty trace — no backend or other resource is
acquired; with the flag set, construction succeeds. -/
theorem C5_alpha_gate :
    AsyncThreadPoolExecutorStrategy.init false
      = ⟨[], .error (.exception
          "AsyncThreadPoolExecutorStrategy is experimental, you need to explicitely activate it using ALPHA=True in system env.")⟩
    ∧ AsyncThreadPoolExecutorStrategy.init true = ⟨[], .ok ()⟩ :=
  ⟨rfl, rfl⟩

/-- C9: the fault-isolation and submission-failure handlers catch only
`Exception`-derived errors — a `BaseException` that is not an `Exception`
(`KeyboardInterrupt`, `SystemExit`) raised inside the node's scope or loop
propagates out of `_runner`, and one raised by `executor.submit`
propagates out of the starter callback. -/
theorem C9_base_exception_propagates :
    (∀ (n : Node) (id : Nat) (e : Exc),
      (withNodeLoop n id).err = some e → e.isException = false →
      (_runner n id).err = some e)
    ∧ (∀ (ex : ExecutorBeh) (subs : List PoolTask) (futures : List Nat)
        (id : Nat) (e : Exc),
        ex.submitResult subs.length = some e → e.isException = false →
        (ExecutorStrategy.starter_step ex subs futures id).err = some e) := by
  constructor
  · intro n id e h he
    rw [_runner_eq_of_uncaught n id e h he]
    exact h
  · intro ex subs futures id e h he
    simp only [ExecutorStrategy.starter_step, submitTask, h]
    simp [he]

/-- C9 witness: a `KeyboardInterrupt` raised by a node's loop propagates
out of `_runner`; one raised by `submit` propagates out of the starter. -/
theorem C9_base_exception_propagates_witness :
    (_runner nodeLoopKI 0).err = some .keyboardInterrupt
    ∧ (ExecutorStrategy.starter_step exKI0 [] [] 0).err
        = some .keyboardInterrupt := by
  have h := C9_base_exception_propagates
  exact ⟨h.1 nodeLoopKI 0 .keyboardInterrupt rfl rfl,
    h.2 exKI0 [] [] 0 .keyboardInterrupt rfl rfl⟩

/-- C10: the event-loop-bridged strategy's starter is
`functools.partial` of `loop.run_in_executor` applied to the executor and
the thread-backed starter: invoking it on a node submits the thread-backed
starter (applied to that node) as a task on the same pool and returns an
awaitable future handle (not `None`); the pool is the one sized to
`len(G)` workers that also runs the node runners, and executing the
scheduled thread-backed starter performs the `executor.submit` of the
node's `_runner` on that same pool. -/
theorem C10_async_starter_bridging (ex : ExecutorBeh) (subs : List PoolTask)
    (id : Nat) (g : Graph)
    (h : ex.submitResult subs.length = none) :
    AsyncThreadPoolExecutorStrategy.starter_step ex subs id
      = (subs ++ [.starterOf id], .ok subs.length)
    ∧ AsyncThreadPoolExecutorStrategy.create_executor g = some g.nodes.length
    ∧ (∀ (subs2 : List PoolTask) (futures : List Nat),
        ex.submitResult subs2.length = none →
        (ExecutorStrategy.starter_step ex subs2 futures id).subs
          = subs2 ++ [.runnerOf id]) := by
  refine ⟨?_, rfl, ?_⟩
  · simp only [AsyncThreadPoolExecutorStrategy.starter_step, submitTask, h]
  · intro subs2 futures h2
    simp only [ExecutorStrategy.starter_step, submitTask, h2]

/-- C10 witness at the empty pool and a one-node graph. -/
theorem C10_async_starter_bridging_witness :
    AsyncThreadPoolExecutorStrategy.starter_step exOK [] 0
      = ([.starterOf 0], .ok 0)
    ∧ AsyncThreadPoolExecutorStrategy.create_executor g1 = some 1
    ∧ (ExecutorStrategy.starter_step exOK [] [] 0).subs = [.runnerOf 0] := by
  have h := C10_async_starter_bridging exOK [] 0 g1 rfl
  exact ⟨h.1, h.2.1, h.2.2 [] [] rfl⟩

/-- C6: if submitting a node's runner to the backend raises an
`Exception`, the starter callback catches it, logs it as critical, and
returns normally, so a submission failure for one node does not prevent
the starter from being invoked — and returning normally — for every other
node: under such a backend every node of the graph is still offered. -/
theorem C6_submission_failure_isolated (ce : Graph → Option Nat) (g : Graph)
    (cb : ContextBeh) (ex : ExecutorBeh)
    (hex : ∀ j, caughtAll (ex.submitResult j) = true)
    (hbuild : cb.buildResult = none) (hsf : cb.startFailure = none) :
    (∀ (subs : List PoolTask) (futures : List Nat) (id : Nat),
        (ExecutorStrategy.starter_step ex subs futures id).err = none)
    ∧ (∀ (subs : List PoolTask) (futures : List Nat) (id : Nat) (e : Exc),
        ex.submitResult subs.length = some e →
        Event.logCritical submitCriticalMsg
          ∈ (ExecutorStrategy.starter_step ex subs futures id).trace)
    ∧ (∀ id, id < g.nodes.length →
        Event.offered id ∈ (executeWith ce cb ex g).trace) := by
  refine ⟨?_, ?_, ?_⟩
  · intro subs futures id
    exact starter_step_err_caught ex subs futures id (hex subs.length)
  · intro subs futures id e h
    have he : e.isException = true := by
      have := hex subs.length
      rw [h] at this
      simpa [caughtAll] using this
    simp only [ExecutorStrategy.starter_step, submitTask, h, he, if_true]
    simp
  · intro id hid
    exact executeWith_mem_start_trace ce cb ex g _ hbuild
      ((contextStart_no_failure cb ex g.nodes.length hex hsf).2 id hid)

/-- C6 witness: a backend whose first submission raises an `Exception`
still lets both nodes of a two-node graph be offered, and the failure is
caught and logged inside the starter. -/
theorem C6_submission_failure_isolated_witness :
    (ExecutorStrategy.starter_step exFail0 [] [] 0).err = none
    ∧ Event.logCritical submitCriticalMsg
        ∈ (ExecutorStrategy.starter_step exFail0 [] [] 0).trace
    ∧ Event.offered 0
        ∈ (executeWith ThreadPoolExecutorStrategy.create_executor cbGood exFail0 g2).trace
    ∧ Event.offered 1
        ∈ (executeWith ThreadPoolExecutorStrategy.create_executor cbGood exFail0 g2).trace := by
  have h := C6_submission_failure_isolated ThreadPoolExecutorStrategy.create_executor
    g2 cbGood exFail0 (by intro j; cases j <;> rfl) rfl rfl
  exact ⟨h.1 [] [] 0, h.2.1 [] [] 0 (.exception "poolboom") rfl,
    h.2.2 0 (by decide), h.2.2 1 (by decide)⟩

/-- C7: the thread-backed and process-backed strategies create their
executor pool with exactly `len(G)` maximum workers, and that is the pool
acquired during `execute`. -/
theorem C7_pool_sizing (g : Graph) (cb : ContextBeh) (ex : ExecutorBeh)
    (hbuild : cb.buildResult = none) :
    ThreadPoolExecutorStrategy.create_executor g = some g.nodes.length
    ∧ ProcessPoolExecutorStrategy.create_executor g = some g.nodes.length
    ∧ Event.acquireBackend (some g.nodes.length)
        ∈ (ThreadPoolExecutorStrategy.execute cb ex g).trace
    ∧ Event.acquireBackend (some g.nodes.length)
        ∈ (ProcessPoolExecutorStrategy.execute cb ex g).trace :=
  ⟨rfl, rfl,
    executeWith_acquires ThreadPoolExecutorStrategy.create_executor cb ex g hbuild,
    executeWith_acquires ProcessPoolExecutorStrategy.create_executor cb ex g hbuild⟩

/-- C7 witness at a one-node graph. -/
theorem C7_pool_sizing_witness :
    ThreadPoolExecutorStrategy.create_executor g1 = some 1
    ∧ ProcessPoolExecutorStrategy.create_executor g1 = some 1
    ∧ Event.acquireBackend (some 1)
        ∈ (ThreadPoolExecutorStrategy.execute cbGood exOK g1).trace := by
  have h := C7_pool_sizing g1 cbGood exOK rfl
  exact ⟨h.1, h.2.1, h.2.2.1⟩

/-- C1 counterexample: the claim states that a failure while *building* the
Execution Context is logged critical and `execute` still returns a Context.
In the code `create_graph_execution_context` sits outside the `try` block:
with a context whose construction raises, `execute` propagates the
exception (no Context is returned) and nothing is logged — the trace is
empty. -/
theorem C1_counterexample :
    (executeWith ThreadPoolExecutorStrategy.create_executor cbBuildFail exOK g1).result
      = .error (.exception "boom")
    ∧ (executeWith ThreadPoolExecutorStrategy.create_executor cbBuildFail exOK g1).trace
      = [] :=
  ⟨rfl, rfl⟩

/-- C1 amended: if *starting* the Execution Context raises an
`Exception`, `execute` logs it as a critical failure and continues into
the tick loop (degraded continuation), calls `stop()`, and still returns a
Context; a failure while *building* the context, by contrast, propagates
out of `execute`. -/
theorem C1_start_failure_degraded (ce : Graph → Option Nat) (g : Graph)
    (cb : ContextBeh) (ex : ExecutorBeh) (k : Nat) (e : Exc)
    (hbuild : cb.buildResult = none)
    (hstart : cb.startFailure = some (k, e)) (he : e.isException = true)
    (hex : ∀ j, caughtAll (ex.submitResult j) = true)
    (htick : ∀ j, cb.tickResult j = none) :
    (executeWith ce cb ex g).result = .ok ()
    ∧ Event.logCritical startCriticalMsg ∈ (executeWith ce cb ex g).trace
    ∧ Event.stop ∈ (executeWith ce cb ex g).trace := by
  have hserr : (contextStart cb ex g.nodes.length).err = some e := by
    rw [contextStart_eq_some cb ex g.nodes.length k e hstart]
    exact abandonAfter_err_none _ _ (runStarters_err_caught ex hex _ _ _)
  have hl : (tickLoop cb cb.aliveTicks 0).err = none := by
    rw [tickLoop_no_failure cb htick]
  rw [executeWith_start_caught ce cb ex g e hbuild hserr he,
    afterStartPhase_ok _ _ _ hl]
  refine ⟨rfl, ?_, ?_⟩ <;> simp

/-- C1 witness: a context whose `start` raises an `Exception` before
offering any node still yields a completed `execute` with the critical
log entry. -/
theorem C1_start_failure_degraded_witness :
    (executeWith ThreadPoolExecutorStrategy.create_executor cbStartFail exOK g1).result
      = .ok ()
    ∧ Event.logCritical startCriticalMsg
        ∈ (executeWith ThreadPoolExecutorStrategy.create_executor cbStartFail exOK g1).trace := by
  have h := C1_start_failure_degraded ThreadPoolExecutorStrategy.create_executor
    g1 cbStartFail exOK 0 (.exception "startboom") rfl rfl rfl
    (fun _ => rfl) (fun _ => rfl)
  exact ⟨h.1, h.2.1⟩

/-- C3: if a `KeyboardInterrupt` is raised by the `i`-th `tick()` during
the tick loop, a warning is logged, `kill()` is called exactly once and
`stop()` exactly once, in that order, before the backend is released, and
the loop exits early — no tick follows the interrupted one (the whole
trace holds exactly `i + 1` ticks, and no kill/stop/tick/release occurs
before the shown suffix). -/
theorem C3_interrupt_kill_stop (ce : Graph → Option Nat) (g : Graph)
    (cb : ContextBeh) (ex : ExecutorBeh) (i : Nat)
    (hbuild : cb.buildResult = none)
    (hsc : startCaught cb = true)
    (hex : ∀ j, caughtAll (ex.submitResult j) = true)
    (hi : i < cb.aliveTicks)
    (hpre : ∀ j, j < i → cb.tickResult j = none)
    (hki : cb.tickResult i = some .keyboardInterrupt) :
    ∃ p, (executeWith ce cb ex g).trace
        = p ++ List.replicate i Event.tick
          ++ [Event.tick, Event.logWarning kiWarning, Event.kill,
              Event.stop, Event.releaseBackend]
      ∧ Event.tick ∉ p ∧ Event.kill ∉ p ∧ Event.stop ∉ p
      ∧ Event.releaseBackend ∉ p
      ∧ (executeWith ce cb ex g).result = .ok () := by
  have hltr : tickLoop cb cb.aliveTicks 0
      = ⟨List.replicate i Event.tick
          ++ [Event.tick, Event.logWarning kiWarning, Event.kill], none⟩ := by
    refine tickLoop_interrupt cb i cb.aliveTicks 0 hi ?_ ?_
    · intro j hj; simpa using hpre j hj
    · simpa using hki
  have hl : (tickLoop cb cb.aliveTicks 0).err = none := by rw [hltr]
  have hcaught := contextStart_err_caught cb ex g.nodes.length hex hsc
  cases hserr : (contextStart cb ex g.nodes.length).err with
  | none =>
      have hexcl := startish_excl (ce g) (contextStart cb ex g.nodes.length).trace
        (body_shape_of_start cb ex g.nodes.length)
      refine ⟨[Event.contextWrite, Event.acquireBackend (ce g)]
          ++ (contextStart cb ex g.nodes.length).trace,
        ?_, hexcl.1, hexcl.2.1, hexcl.2.2.1, hexcl.2.2.2, ?_⟩
      · rw [executeWith_start_ok ce cb ex g hbuild hserr,
          afterStartPhase_ok _ _ _ hl, hltr]
        simp [List.append_assoc]
      · rw [executeWith_start_ok ce cb ex g hbuild hserr,
          afterStartPhase_ok _ _ _ hl]
  | some e =>
      have he : e.isException = true := by
        rw [hserr] at hcaught
        simpa [caughtAll] using hcaught
      have hexcl := startish_excl (ce g)
        ((contextStart cb ex g.nodes.length).trace
          ++ [Event.logCritical startCriticalMsg])
        (body_shape_of_start_caught cb ex g.nodes.length)
      refine ⟨[Event.contextWrite, Event.acquireBackend (ce g)]
          ++ ((contextStart cb ex g.nodes.length).trace
            ++ [Event.logCritical startCriticalMsg]),
        ?_, hexcl.1, hexcl.2.1, hexcl.2.2.1, hexcl.2.2.2, ?_⟩
      · rw [executeWith_start_caught ce cb ex g e hbuild hserr he,
          afterStartPhase_ok _ _ _ hl, hltr]
        simp [List.append_assoc]
      · rw [executeWith_start_caught ce cb ex g e hbuild hserr he,
          afterStartPhase_ok _ _ _ hl]

/-- C3 witness: a `KeyboardInterrupt` at the second tick of a clean run
leaves the trace `… tick, tick, warning, kill, stop, releaseBackend`. -/
theorem C3_interrupt_kill_stop_witness :
    ∃ p, (executeWith ThreadPoolExecutorStrategy.create_executor cbInterrupt exOK g1).trace
        = p ++ List.replicate 1 Event.tick
          ++ [Event.tick, Event.logWarning kiWarning, Event.kill,
              Event.stop, Event.releaseBackend]
      ∧ Event.tick ∉ p ∧ Event.kill ∉ p ∧ Event.stop ∉ p
      ∧ Event.releaseBackend ∉ p
      ∧ (executeWith ThreadPoolExecutorStrategy.create_executor cbInterrupt exOK g1).result
          = .ok () := by
  refine C3_interrupt_kill_stop ThreadPoolExecutorStrategy.create_executor
    g1 cbInterrupt exOK 1 rfl rfl (fun _ => rfl) (by decide) ?_ rfl
  intro j hj
  interval_cases j
  rfl

/-- C4 counterexample: the claim says `stop()` is called in *every*
execution of `execute`; but when `tick()` itself raises an ordinary
`Exception` (a fault class the layer deliberately does not contain), the
exception propagates, `stop()` is never called, and only the scoped exit
still releases the backend. -/
theorem C4_counterexample :
    Event.stop
        ∉ (executeWith ThreadPoolExecutorStrategy.create_executor cbTickFail exOK g1).trace
    ∧ Event.releaseBackend
        ∈ (executeWith ThreadPoolExecutorStrategy.create_executor cbTickFail exOK g1).trace
    ∧ (executeWith ThreadPoolExecutorStrategy.create_executor cbTickFail exOK g1).result
        = .error (.exception "tickboom") :=
  ⟨by decide, by decide, rfl⟩

/-- C4 amended: in every execution of `execute` that returns a Context
(i.e. in which neither `tick()` nor `start` propagates an uncaught
exception — this includes runs ending after a `KeyboardInterrupt` and runs
whose `start` failure was caught), `stop()` is called exactly once, before
the backend is released; an execution that `tick()` aborts skips `stop()`
though the backend is still released. -/
theorem C4_stop_before_release (ce : Graph → Option Nat) (g : Graph)
    (cb : ContextBeh) (ex : ExecutorBeh)
    (hok : (executeWith ce cb ex g).result = .ok ()) :
    ∃ p, (executeWith ce cb ex g).trace = p ++ [Event.stop, Event.releaseBackend]
      ∧ Event.stop ∉ p ∧ Event.releaseBackend ∉ p := by
  cases hbuild : cb.buildResult with
  | some e =>
      rw [executeWith, hbuild] at hok
      exact Except.noConfusion hok
  | none =>
      cases hserr : (contextStart cb ex g.nodes.length).err with
      | none =>
          rw [executeWith_start_ok ce cb ex g hbuild hserr] at hok ⊢
          cases hl : (tickLoop cb cb.aliveTicks 0).err with
          | some e2 =>
              rw [afterStartPhase_err _ _ _ _ hl] at hok
              exact Except.noConfusion hok
          | none =>
              rw [afterStartPhase_ok _ _ _ hl]
              have hb := body_shape_of_start cb ex g.nodes.length
              have hexcl := startish_excl (ce g) _ hb
              have hloop := loopish_excl cb cb.aliveTicks 0
              refine ⟨[Event.contextWrite, Event.acquireBackend (ce g)]
                  ++ ((contextStart cb ex g.nodes.length).trace
                    ++ (tickLoop cb cb.aliveTicks 0).trace), ?_, ?_, ?_⟩
              · simp [List.append_assoc]
              · intro hm
                rcases List.mem_append.mp hm with h | h
                · simp at h
                · rcases List.mem_append.mp h with h1 | h1
                  · rcases hb _ h1 with ⟨j, hj⟩ | ⟨m, hj⟩ <;> simp at hj
                  · exact hloop.1 h1
              · intro hm
                rcases List.mem_append.mp hm with h | h
                · simp at h
                · rcases List.mem_append.mp h with h1 | h1
                  · rcases hb _ h1 with ⟨j, hj⟩ | ⟨m, hj⟩ <;> simp at hj
                  · exact hloop.2.1 h1
      | some e =>
          cases he : e.isException with
          | false =>
              rw [executeWith_start_uncaught ce cb ex g e hbuild hserr he] at hok
              exact Except.noConfusion hok
          | true =>
              rw [executeWith_start_caught ce cb ex g e hbuild hserr he] at hok ⊢
              cases hl : (tickLoop cb cb.aliveTicks 0).err with
              | some e2 =>
                  rw [afterStartPhase_err _ _ _ _ hl] at hok
                  exact Except.noConfusion hok
              | none =>
                  rw [afterStartPhase_ok _ _ _ hl]
                  have hb := body_shape_of_start_caught cb ex g.nodes.length
                  have hloop := loopish_excl cb cb.aliveTicks 0
                  refine ⟨[Event.contextWrite, Event.acquireBackend (ce g)]
                      ++ (((contextStart cb ex g.nodes.length).trace
                          ++ [Event.logCritical startCriticalMsg])
                        ++ (tickLoop cb cb.aliveTicks 0).trace), ?_, ?_, ?_⟩
                  · simp [List.append_assoc]
                  · intro hm
                    rcases List.mem_append.mp hm with h | h
                    · simp at h
                    · rcases List.mem_append.mp h with h1 | h1
                      · rcases hb _ h1 with ⟨j, hj⟩ | ⟨m, hj⟩ <;> simp at hj
                      · exact hloop.1 h1
                  · intro hm
                    rcases List.mem_append.mp hm with h | h
                    · simp at h
                    · rcases List.mem_append.mp h with h1 | h1
                      · rcases hb _ h1 with ⟨j, hj⟩ | ⟨m, hj⟩ <;> simp at hj
                      · exact hloop.2.1 h1

/-- C4 witness: an unremarkable complete run ends `…, stop,
releaseBackend` with `stop` nowhere earlier. -/
theorem C4_stop_before_release_witness :
    Event.stop
      ∈ (executeWith ThreadPoolExecutorStrategy.create_executor cbGood exOK g1).trace := by
  obtain ⟨p, hp, -, -⟩ := C4_stop_before_release
    ThreadPoolExecutorStrategy.create_executor g1 cbGood exOK rfl
  rw [hp]
  simp

/-- C8 counterexample: the claim's invariant — the context is never ticked
before every node has been offered to the starter — fails when `start` is
abandoned by a caught failure before offering every node: here `start`
raises before offering the single node, the run continues degraded, and
`tick` occurs while node `0` was never offered. -/
theorem C8_counterexample :
    Event.tick
      ∈ (executeWith ThreadPoolExecutorStrategy.create_executor cbStartFail exOK g1).trace
    ∧ Event.offered 0
      ∉ (executeWith ThreadPoolExecutorStrategy.create_executor cbStartFail exOK g1).trace :=
  ⟨by decide, by decide⟩

/-- C8 amended: every trace of `execute` splits into a start phase before
a tick phase — no tick precedes the start phase's events and no node is
offered once ticking has begun (start completes or is abandoned before the
first tick); and when the context builds and `start` completes without
failure of its own (submission failures all caught), every node of the
graph has been offered within that pre-tick phase. -/
theorem C8_start_before_ticks (ce : Graph → Option Nat) (g : Graph)
    (cb : ContextBeh) (ex : ExecutorBeh) :
    ∃ p q, (executeWith ce cb ex g).trace = p ++ q
      ∧ Event.tick ∉ p
      ∧ (∀ id, Event.offered id ∉ q)
      ∧ (cb.buildResult = none → cb.startFailure = none →
          (∀ j, caughtAll (ex.submitResult j) = true) →
          ∀ id, id < g.nodes.length → Event.offered id ∈ p) := by
  cases hbuild : cb.buildResult with
  | some e =>
      refine ⟨[], [], ?_, by simp, by simp, ?_⟩
      · simp [executeWith, hbuild]
      · intro hb
        exact Option.noConfusion hb
  | none =>
      cases hserr : (contextStart cb ex g.nodes.length).err with
      | none =>
          have hb := body_shape_of_start cb ex g.nodes.length
          have hexcl := startish_excl (ce g) _ hb
          have hloop := loopish_excl cb cb.aliveTicks 0
          rw [executeWith_start_ok ce cb ex g hbuild hserr]
          cases hl : (tickLoop cb cb.aliveTicks 0).err with
          | none =>
              rw [afterStartPhase_ok _ _ _ hl]
              refine ⟨[Event.contextWrite, Event.acquireBackend (ce g)]
                  ++ (contextStart cb ex g.nodes.length).trace,
                (tickLoop cb cb.aliveTicks 0).trace
                  ++ [Event.stop, Event.releaseBackend],
                by simp [List.append_assoc], hexcl.1, ?_, ?_⟩
              · intro id hm
                rcases List.mem_append.mp hm with h | h
                · exact hloop.2.2 id h
                · simp at h
              · intro _ hsf hex id hid
                exact List.mem_append_right _
                  ((contextStart_no_failure cb ex g.nodes.length hex hsf).2 id hid)
          | some e2 =>
              rw [afterStartPhase_err _ _ _ _ hl]
              refine ⟨[Event.contextWrite, Event.acquireBackend (ce g)]
                  ++ (contextStart cb ex g.nodes.length).trace,
                (tickLoop cb cb.aliveTicks 0).trace ++ [Event.releaseBackend],
                by simp [List.append_assoc], hexcl.1, ?_, ?_⟩
              · intro id hm
                rcases List.mem_append.mp hm with h | h
                · exact hloop.2.2 id h
                · simp at h
              · intro _ hsf hex id hid
                exact List.mem_append_right _
                  ((contextStart_no_failure cb ex g.nodes.length hex hsf).2 id hid)
      | some e =>
          have hcontra : cb.startFailure = none →
              (∀ j, caughtAll (ex.submitResult j) = true) → False := by
            intro hsf hex
            have := (contextStart_no_failure cb ex g.nodes.length hex hsf).1
            rw [hserr] at this
            exact Option.noConfusion this
          cases he : e.isException with
          | true =>
              have hb := body_shape_of_start_caught cb ex g.nodes.length
              have hexcl := startish_excl (ce g) _ hb
              have hloop := loopish_excl cb cb.aliveTicks 0
              rw [executeWith_start_caught ce cb ex g e hbuild hserr he]
              cases hl : (tickLoop cb cb.aliveTicks 0).err with
              | none =>
                  rw [afterStartPhase_ok _ _ _ hl]
                  refine ⟨[Event.contextWrite, Event.acquireBackend (ce g)]
                      ++ ((contextStart cb ex g.nodes.length).trace
                        ++ [Event.logCritical startCriticalMsg]),
                    (tickLoop cb cb.aliveTicks 0).trace
                      ++ [Event.stop, Event.releaseBackend],
                    by simp [List.append_assoc], hexcl.1, ?_, ?_⟩
                  · intro id hm
                    rcases List.mem_append.mp hm with h | h
                    · exact hloop.2.2 id h
                    · simp at h
                  · intro _ hsf hex
                    exact absurd (hcontra hsf hex) (by simp)
              | some e2 =>
                  rw [afterStartPhase_err _ _ _ _ hl]
                  refine ⟨[Event.contextWrite, Event.acquireBackend (ce g)]
                      ++ ((contextStart cb ex g.nodes.length).trace
                        ++ [Event.logCritical startCriticalMsg]),
                    (tickLoop cb cb.aliveTicks 0).trace ++ [Event.releaseBackend],
                    by simp [List.append_assoc], hexcl.1, ?_, ?_⟩
                  · intro id hm
                    rcases List.mem_append.mp hm with h | h
                    · exact hloop.2.2 id h
                    · simp at h
                  · intro _ hsf hex
                    exact absurd (hcontra hsf hex) (by simp)
          | false =>
              have hb := body_shape_of_start cb ex g.nodes.length
              have hexcl := startish_excl (ce g) _ hb
              rw [executeWith_start_uncaught ce cb ex g e hbuild hserr he]
              refine ⟨[Event.contextWrite, Event.acquireBackend (ce g)]
                  ++ (contextStart cb ex g.nodes.length).trace,
                [Event.releaseBackend],
                by simp [List.append_assoc], hexcl.1, by simp, ?_⟩
              intro _ hsf hex
              exact absurd (hcontra hsf hex) (by simp)

/-- C8 witness: in a clean run of a one-node graph the node is offered in
the pre-tick phase of the trace. -/
theorem C8_start_before_ticks_witness :
    Event.offered 0
      ∈ (executeWith ThreadPoolExecutorStrategy.create_executor cbGood exOK g1).trace := by
  obtain ⟨p, q, htr, -, -, hall⟩ := C8_start_before_ticks
    ThreadPoolExecutorStrategy.create_executor g1 cbGood exOK
  rw [htr]
  exact List.mem_append_left _
    (hall rfl rfl (fun _ => rfl) 0 (by decide))

end Bonobo
